import Mathlib

/-
Verification of the Go analyzer core (analyzers/golang/golang.go):
the construction of the analyzer (`New`), its build-constraint world
list (`BuildTags`), and the delegating operations `Clean`, `Build`
and `IsBuilt`.  External collaborators of the analyzed file
(`exec.Which`, the `gocmd` toolchain, the outer CLI's `Module`) are
modelled from the specification, as state-passing abstractions.
-/

set_option autoImplicit false

namespace FossaGolang

/-- Errors are opaque to the analyzed code; they are carried as strings. -/
abbrev GoErr := String

/-- Modelled from the spec: a pinned revision record (spec section 3);
the repository's `pkg` type is not under src. -/
structure Revision where
  name : String
  revision : String
  isUnresolved : Bool
  deriving DecidableEq, Repr

/-- Modelled from the spec: a resolver answers ImportPath to Revision
queries against an in-memory index (spec section 4.2); the repository's
`resolver.Resolver` interface is not under src.  Only its identity as a
cache value matters here, so it is represented by its index. -/
structure Resolver where
  index : List (String × Revision)
  deriving DecidableEq, Repr

/-- Modelled from the spec: a Project record (spec section 3); the
repository's `golang.Project` type is not under src. -/
structure Project where
  root : String
  deriving DecidableEq, Repr

/-- The package record the toolchain adapter produces (spec section 3,
`gocmd.GoPackage` is not under src).  `IsBuilt` in the analyzed source
reads only the `error` field. -/
structure GoPackage where
  importPath : String
  dir : String
  isStandard : Bool
  directImports : List String
  error : Option GoErr
  deriving DecidableEq, Repr

/-- The `gocmd.Go` handle that `New` constructs: the chosen command name
and the module directory (golang.go lines 97-100). -/
structure Go where
  cmd : String
  dir : String
  deriving DecidableEq, Repr

/-- Modelled from the spec: the Module record supplied by the outer CLI
(spec section 6), `module.Module` is not under src.  Its raw Options map
is represented by the decode result passed to `New`. -/
structure Module where
  dir : String
  buildTarget : String
  deriving DecidableEq, Repr

/-- Analyzer options for Go modules (golang.go, `Options`).  Field
defaults are the Go zero values produced when an option is absent. -/
structure Options where
  tags : List String := []
  allTags : Bool := false
  strategy : String := ""
  lockfilePath : String := ""
  manifestPath : String := ""
  allowUnresolved : Bool := false
  allowUnresolvedPfx : String := ""
  allowNestedVendor : Bool := false
  allowDeepVendor : Bool := false
  allowExternalVendor : Bool := false
  allowExternalVendorPfx : String := ""
  modulesVendor : Bool := false
  skipImportTracing : Bool := false
  skipProject : Bool := false
  deriving DecidableEq, Repr

/-- The fixed OS tag list (golang.go line 66, `osTags`). -/
def osTags : List String :=
  ["windows", "linux", "freebsd", "android", "darwin", "dragonfly",
   "nacl", "netbsd", "openbsd", "plan9", "solaris"]

/-- The fixed architecture tag list (golang.go line 67, `archTags`). -/
def archTags : List String :=
  ["386", "amd64", "amd64p32", "arm", "armbe", "arm64", "arm64be",
   "ppc64", "ppc64le", "mips", "mipsle", "mips64", "mips64le",
   "mips64p32", "mips64p32le", "ppc", "s390", "s390x", "sparc", "sparc64"]

/-- The Analyzer record (golang.go lines 33-46).  The two caches are
`Option` so that a Go nil map (`none`) is distinguished from an empty
map built with `make` (`some []`). -/
structure Analyzer where
  go : Go
  goVersion : String
  module : Module
  options : Options
  buildTags : List String
  resolverCache : Option (List (String × Resolver))
  projectCache : Option (List (String × Project))
  deriving DecidableEq, Repr

/-- Modelled from the spec: `exec.Which` (not under src) tries each
candidate command in order and returns the first available one together
with its reported version output; `none` when no candidate is available
("absence of the tool is a fatal startup error", spec section 6).
`avail` maps a command name to its version output when that command is
available in the environment. -/
def which (avail : String → Option String) : List String → Option (String × String)
  | [] => none
  | c :: cs =>
    match avail c with
    | some v => some (c, v)
    | none => which avail cs

/-- `New` constructs an Analyzer (golang.go lines 70-111).  `dec` is the
result of `mapstructure.Decode` on `m.Options`; `avail` models command
availability for `exec.Which`; `fossaGoCmd` is the value of the
`FOSSA_GO_CMD` environment variable (empty string when unset). -/
def New (dec : Except GoErr Options) (avail : String → Option String)
    (fossaGoCmd : String) (m : Module) : Except GoErr Analyzer :=
  match dec with
  | Except.error e => Except.error e
  | Except.ok options =>
    match which avail [fossaGoCmd, "go"] with
    | none => Except.error "could not find Go binary"
    | some (cmd, version) =>
      let tags := options.tags
      let tags := if options.allTags then tags ++ osTags ++ archTags else tags
      let tags := tags ++ [""]
      Except.ok
        { go := { cmd := cmd, dir := m.dir }
          goVersion := version
          module := m
          options := options
          buildTags := tags
          resolverCache := some []
          projectCache := some [] }

/-- Modelled from the spec: the behaviour of the external go toolchain
(`buildtools/gocmd`, not under src), as state-passing operations over an
abstract toolchain/filesystem state `σ`.  Each operation receives the
`Go` handle it is invoked on; `listOne` takes the target, an optional
build-constraint world (`none` is the host world) and the
modules-vendor flag, exactly as the analyzed source calls it. -/
structure GoTool (σ : Type) where
  clean : Go → List String → σ → Option GoErr × σ
  build : Go → List String → σ → Option GoErr × σ
  listOne : Go → String → Option (List String) → Bool → σ → Except GoErr GoPackage × σ

/-- `Clean` runs `go clean $PKG` on the singleton target list
(golang.go lines 114-117).  The analyzer value is threaded through to
make its (absence of) mutation explicit. -/
def Analyzer.clean {σ : Type} (t : GoTool σ) (a : Analyzer) (s : σ) :
    Option GoErr × Analyzer × σ :=
  ((t.clean a.go [a.module.buildTarget] s).1, a, (t.clean a.go [a.module.buildTarget] s).2)

/-- `Build` runs `go build $PKG` on the singleton target list
(golang.go lines 120-123). -/
def Analyzer.build {σ : Type} (t : GoTool σ) (a : Analyzer) (s : σ) :
    Option GoErr × Analyzer × σ :=
  ((t.build a.go [a.module.buildTarget] s).1, a, (t.build a.go [a.module.buildTarget] s).2)

/-- `IsBuilt` runs `go list $PKG` under the host world and checks the
per-package error (golang.go lines 126-134): on a `ListOne` failure it
returns `(false, the error)`, otherwise `(pkg.Error == nil, no error)`. -/
def Analyzer.isBuilt {σ : Type} (t : GoTool σ) (a : Analyzer) (s : σ) :
    (Bool × Option GoErr) × Analyzer × σ :=
  match t.listOne a.go a.module.buildTarget none a.options.modulesVendor s with
  | (Except.error e, s₁) => ((false, some e), a, s₁)
  | (Except.ok pkg, s₁) => ((pkg.error.isNone, none), a, s₁)

/-- Modelled from the spec: a toolchain state realizing the round-trip
property of spec section 8 — the state is the set of currently built
targets; `clean` removes the given targets, `build` adds them, and
`listOne` reports a per-package error exactly when the target is not
built. -/
def specTool : GoTool (List String) where
  clean := fun _ targets s => (none, s.filter (fun x => !(targets.contains x)))
  build := fun _ targets s => (none, targets ++ s)
  listOne := fun _ target _world _mv s =>
    (Except.ok
      { importPath := target
        dir := ""
        isStandard := false
        directImports := []
        error := if s.contains target then none else some "build constraints exclude all Go files" }, s)

/-- A concrete module used to evaluate the development on explicit inputs. -/
def m₀ : Module := { dir := "/home/user/src/app", buildTarget := "example.org/app" }

/-- A concrete command-availability environment where only the default
`go` command exists. -/
def availGo : String → Option String :=
  fun c => if c = "go" then some "go version go1.12.4 linux/amd64" else none

/-- A concrete command-availability environment where both a custom
command named by FOSSA_GO_CMD and the default `go` command exist. -/
def availBoth : String → Option String :=
  fun c =>
    if c = "mygo" then some "go version go1.99 custom"
    else if c = "go" then some "go version go1.12.4 linux/amd64" else none

/-- The analyzer `New` constructs for `m₀` with default options under
`availGo`. -/
def a₀ : Analyzer :=
  { go := { cmd := "go", dir := "/home/user/src/app" }
    goVersion := "go version go1.12.4 linux/amd64"
    module := m₀
    options := {}
    buildTags := [""]
    resolverCache := some []
    projectCache := some [] }

/-- The analyzer `New` constructs for `m₀` with `all-tags` set under
`availGo`. -/
def aAll : Analyzer :=
  { go := { cmd := "go", dir := "/home/user/src/app" }
    goVersion := "go version go1.12.4 linux/amd64"
    module := m₀
    options := { allTags := true }
    buildTags := osTags ++ archTags ++ [""]
    resolverCache := some []
    projectCache := some [] }

/-- Characterization of a successful `New` on decoded options: it
succeeds exactly when `which` finds a command, and the resulting
analyzer is fully determined by the found command, its version, the
module and the options. -/
theorem New_ok_iff (options : Options) (avail : String → Option String)
    (fossaGoCmd : String) (m : Module) (a : Analyzer) :
    New (Except.ok options) avail fossaGoCmd m = Except.ok a ↔
      ∃ c v, which avail [fossaGoCmd, "go"] = some (c, v) ∧
        a = { go := { cmd := c, dir := m.dir }
              goVersion := v
              module := m
              options := options
              buildTags :=
                (if options.allTags then options.tags ++ osTags ++ archTags
                 else options.tags) ++ [""]
              resolverCache := some []
              projectCache := some [] } := by
  unfold New
  cases hw : which avail [fossaGoCmd, "go"] with
  | none => simp [hw]
  | some p =>
    obtain ⟨c, v⟩ := p
    simp only [hw, Except.ok.injEq, Option.some.injEq, Prod.mk.injEq]
    constructor
    · intro h
      exact ⟨c, v, ⟨rfl, rfl⟩, h.symm⟩
    · rintro ⟨c', v', ⟨rfl, rfl⟩, rfl⟩
      rfl

/-- Splits a list of characters on spaces, accumulating the current
token in reverse; helper for `worldTokens`. -/
def splitTokens : List Char → List Char → List String
  | [], acc => [String.mk acc.reverse]
  | c :: cs, acc =>
    if c = ' ' then String.mk acc.reverse :: splitTokens cs []
    else splitTokens cs (c :: acc)

/-- The token set of a build-constraint world: a world is passed to the
go tool as one space-separated tag string (spec glossary: a world is a
set of tokens), so its tokens are the space-separated components. -/
def worldTokens (w : String) : List String := splitTokens w.toList []

/-- C2: for every Module and every decoded Options value, the BuildTags
list of the Analyzer returned by a successful New contains the empty
string denoting the implicit host world, appended as the final element. -/
theorem host_world_appended (options : Options) (avail : String → Option String)
    (fossaGoCmd : String) (m : Module) (a : Analyzer)
    (h : New (Except.ok options) avail fossaGoCmd m = Except.ok a) :
    "" ∈ a.buildTags ∧ a.buildTags.getLast? = some "" := by
  obtain ⟨c, v, hw, rfl⟩ := (New_ok_iff options avail fossaGoCmd m a).1 h
  exact ⟨by simp, by simp⟩

/-- C2 witness: the host world is last in the concretely constructed
analyzer `a₀`. -/
theorem host_world_appended_witness :
    "" ∈ a₀.buildTags ∧ a₀.buildTags.getLast? = some "" :=
  host_world_appended {} availGo "" m₀ a₀ rfl

/-- C1 counterexample: with `all-tags` set, the constructed world list
does not contain a world for every OS×arch pair: New succeeds on a
concrete module, yet no world in the resulting BuildTags has both
"windows" (an OS tag) and "386" (an architecture tag) among its tokens. -/
theorem allTags_no_pair_worlds :
    "windows" ∈ osTags ∧ "386" ∈ archTags ∧
      ∃ a, New (Except.ok { allTags := true }) availGo "" m₀ = Except.ok a ∧
        ∀ w ∈ a.buildTags,
          ¬("windows" ∈ worldTokens w ∧ "386" ∈ worldTokens w) := by
  refine ⟨by decide, by decide, aAll, rfl, by decide⟩

/-- C1 (amended): with `all-tags` set, the world list built by New is
the user tags followed by every OS tag and every architecture tag as
individual single-tag worlds (the union of the two fixed lists, not
their Cartesian product of pairs), followed by the host world. -/
theorem allTags_union_worlds (options : Options) (avail : String → Option String)
    (fossaGoCmd : String) (m : Module) (a : Analyzer)
    (hAll : options.allTags = true)
    (h : New (Except.ok options) avail fossaGoCmd m = Except.ok a) :
    a.buildTags = options.tags ++ osTags ++ archTags ++ [""] := by
  obtain ⟨c, v, hw, rfl⟩ := (New_ok_iff options avail fossaGoCmd m a).1 h
  simp [hAll, List.append_assoc]

/-- C1 witness: the amended world-list equation evaluated on the
concretely constructed analyzer `aAll`. -/
theorem allTags_union_worlds_witness :
    aAll.buildTags = ({ allTags := true } : Options).tags ++ osTags ++ archTags ++ [""] :=
  allTags_union_worlds { allTags := true } availGo "" m₀ aAll rfl rfl

/-- C4: when `all-tags` is not set, the world list built by New is
exactly the user-supplied tags followed by the host world and nothing
else. -/
theorem tags_only_worlds (options : Options) (avail : String → Option String)
    (fossaGoCmd : String) (m : Module) (a : Analyzer)
    (hAll : options.allTags = false)
    (h : New (Except.ok options) avail fossaGoCmd m = Except.ok a) :
    a.buildTags = options.tags ++ [""] := by
  obtain ⟨c, v, hw, rfl⟩ := (New_ok_iff options avail fossaGoCmd m a).1 h
  simp [hAll]

/-- C4 witness: with default options (no tags, no all-tags) the world
list of `a₀` is just the host world. -/
theorem tags_only_worlds_witness :
    a₀.buildTags = ({} : Options).tags ++ [""] :=
  tags_only_worlds {} availGo "" m₀ a₀ rfl rfl

/-- The package record `specTool.listOne` returns for the built target
of `a₀`; used to evaluate the `IsBuilt` characterization concretely. -/
def pkg₀ : GoPackage :=
  { importPath := "example.org/app"
    dir := ""
    isStandard := false
    directImports := []
    error := none }

/-- C3: whenever `ListOne` for the module's BuildTarget under the host
world succeeds with package `pkg`, `IsBuilt` returns true exactly when
`pkg` carries no per-package error (and no error of its own); whenever
`ListOne` fails with `e`, `IsBuilt` returns false together with `e`. -/
theorem isBuilt_iff_no_package_error {σ : Type} (t : GoTool σ) (a : Analyzer) (s : σ) :
    (∀ pkg s₁,
      t.listOne a.go a.module.buildTarget none a.options.modulesVendor s = (Except.ok pkg, s₁) →
      (((Analyzer.isBuilt t a s).1.1 = true ↔ pkg.error = none) ∧
        (Analyzer.isBuilt t a s).1.2 = none)) ∧
    (∀ e s₁,
      t.listOne a.go a.module.buildTarget none a.options.modulesVendor s = (Except.error e, s₁) →
      (Analyzer.isBuilt t a s).1 = (false, some e)) := by
  constructor
  · intro pkg s₁ h
    unfold Analyzer.isBuilt
    rw [h]
    simp [Option.isNone_iff_eq_none]
  · intro e s₁ h
    unfold Analyzer.isBuilt
    rw [h]

/-- C3 witness: on the concrete analyzer `a₀` with the target built,
`ListOne` succeeds with the error-free package `pkg₀` and `IsBuilt`
returns true with no error. -/
theorem isBuilt_iff_no_package_error_witness :
    ((Analyzer.isBuilt specTool a₀ ["example.org/app"]).1.1 = true ↔ pkg₀.error = none) ∧
      (Analyzer.isBuilt specTool a₀ ["example.org/app"]).1.2 = none :=
  (isBuilt_iff_no_package_error specTool a₀ ["example.org/app"]).1 pkg₀
    ["example.org/app"] rfl

/-- C5: when neither the command named by FOSSA_GO_CMD nor the default
`go` command is available, New returns an error and no Analyzer. -/
theorem new_fails_without_tool (options : Options) (avail : String → Option String)
    (fossaGoCmd : String) (m : Module)
    (h₁ : avail fossaGoCmd = none) (h₂ : avail "go" = none) :
    ∃ e, New (Except.ok options) avail fossaGoCmd m = Except.error e := by
  refine ⟨"could not find Go binary", ?_⟩
  have hw : which avail [fossaGoCmd, "go"] = none := by
    unfold which
    rw [h₁]
    unfold which
    rw [h₂]
    rfl
  unfold New
  simp only [hw]

/-- C5 witness: in an environment with no available command at all, New
fails on the concrete module `m₀`. -/
theorem new_fails_without_tool_witness :
    ∃ e, New (Except.ok {}) (fun _ => none) "" m₀ = Except.error e :=
  new_fails_without_tool {} (fun _ => none) "" m₀ rfl rfl

/-- C6: `Clean` returns exactly the toolchain's clean result on the
singleton list holding the module's BuildTarget, and `Build` exactly the
toolchain's build result on that same singleton list; neither has any
other effect on the Analyzer, and the toolchain state is exactly the one
the delegated operation leaves. -/
theorem clean_build_delegate {σ : Type} (t : GoTool σ) (a : Analyzer) (s : σ) :
    Analyzer.clean t a s =
        ((t.clean a.go [a.module.buildTarget] s).1, a,
          (t.clean a.go [a.module.buildTarget] s).2) ∧
      Analyzer.build t a s =
        ((t.build a.go [a.module.buildTarget] s).1, a,
          (t.build a.go [a.module.buildTarget] s).2) :=
  ⟨rfl, rfl⟩

/-- C7: New selects the command from the environment: when FOSSA_GO_CMD
names an available command it is chosen and its version recorded in
GoVersion; otherwise, when the default `go` is available, `go` is chosen
with its version; and whenever at least one of the two is available, New
succeeds. -/
theorem new_selects_env_cmd (options : Options) (avail : String → Option String)
    (fossaGoCmd : String) (m : Module) :
    (∀ v, avail fossaGoCmd = some v →
      ∃ a, New (Except.ok options) avail fossaGoCmd m = Except.ok a ∧
        a.go.cmd = fossaGoCmd ∧ a.goVersion = v) ∧
    (∀ v, avail fossaGoCmd = none → avail "go" = some v →
      ∃ a, New (Except.ok options) avail fossaGoCmd m = Except.ok a ∧
        a.go.cmd = "go" ∧ a.goVersion = v) ∧
    ((∃ v, avail fossaGoCmd = some v) ∨ (∃ v, avail "go" = some v) →
      ∃ a, New (Except.ok options) avail fossaGoCmd m = Except.ok a) := by
  have hgen : ∀ c v, which avail [fossaGoCmd, "go"] = some (c, v) →
      ∃ a, New (Except.ok options) avail fossaGoCmd m = Except.ok a ∧
        a.go.cmd = c ∧ a.goVersion = v := by
    intro c v hw
    exact ⟨_, (New_ok_iff options avail fossaGoCmd m _).2 ⟨c, v, hw, rfl⟩, rfl, rfl⟩
  refine ⟨?_, ?_, ?_⟩
  · intro v hv
    refine hgen fossaGoCmd v ?_
    unfold which
    rw [hv]
  · intro v hv hv'
    refine hgen "go" v ?_
    unfold which
    rw [hv]
    unfold which
    rw [hv']
  · rintro (⟨v, hv⟩ | ⟨v, hv⟩)
    · obtain ⟨a, ha, -, -⟩ := by
        refine hgen fossaGoCmd v ?_
        unfold which
        rw [hv]
      exact ⟨a, ha⟩
    · cases hf : avail fossaGoCmd with
      | some v' =>
        obtain ⟨a, ha, -, -⟩ := by
          refine hgen fossaGoCmd v' ?_
          unfold which
          rw [hf]
        exact ⟨a, ha⟩
      | none =>
        obtain ⟨a, ha, -, -⟩ := by
          refine hgen "go" v ?_
          unfold which
          rw [hf]
          unfold which
          rw [hv]
        exact ⟨a, ha⟩

/-- C7 witness: with both a custom command `mygo` and the default
available, New on the concrete module `m₀` picks `mygo` and records its
version. -/
theorem new_selects_env_cmd_witness :
    ∃ a, New (Except.ok {}) availBoth "mygo" m₀ = Except.ok a ∧
      a.go.cmd = "mygo" ∧ a.goVersion = "go version go1.99 custom" :=
  (new_selects_env_cmd {} availBoth "mygo" m₀).1 "go version go1.99 custom" rfl

/-- C8: against the spec's toolchain-state model, for every analyzer
and every toolchain state, running Clean and then IsBuilt yields false,
and running Build and then IsBuilt yields true. -/
theorem clean_build_isBuilt_roundtrip (a : Analyzer) (s : List String) :
    (Analyzer.isBuilt specTool (Analyzer.clean specTool a s).2.1
        (Analyzer.clean specTool a s).2.2).1.1 = false ∧
      (Analyzer.isBuilt specTool (Analyzer.build specTool a s).2.1
        (Analyzer.build specTool a s).2.2).1.1 = true := by
  constructor
  · simp [Analyzer.clean, Analyzer.isBuilt, specTool, List.mem_filter]
  · simp [Analyzer.build, Analyzer.isBuilt, specTool]

/-- C9: every Analyzer a successful New returns has both caches
initialized to the empty, non-nil map (`some []`, never `none`). -/
theorem new_caches_empty (options : Options) (avail : String → Option String)
    (fossaGoCmd : String) (m : Module) (a : Analyzer)
    (h : New (Except.ok options) avail fossaGoCmd m = Except.ok a) :
    a.resolverCache = some [] ∧ a.resolverCache ≠ none ∧
      a.projectCache = some [] ∧ a.projectCache ≠ none := by
  obtain ⟨c, v, hw, rfl⟩ := (New_ok_iff options avail fossaGoCmd m a).1 h
  exact ⟨rfl, by simp, rfl, by simp⟩

/-- C9 witness: the caches of the concretely constructed analyzer `a₀`
are empty and non-nil. -/
theorem new_caches_empty_witness :
    a₀.resolverCache = some [] ∧ a₀.resolverCache ≠ none ∧
      a₀.projectCache = some [] ∧ a₀.projectCache ≠ none :=
  new_caches_empty {} availGo "" m₀ a₀ rfl

/-- C10: Clean, Build and IsBuilt leave the Analyzer record — and hence
its Go handle, GoVersion, Module, Options, BuildTags and both caches —
unchanged, for every toolchain behaviour and every toolchain state. -/
theorem operations_leave_analyzer_unchanged {σ : Type} (t : GoTool σ) (a : Analyzer) (s : σ) :
    (Analyzer.clean t a s).2.1 = a ∧ (Analyzer.build t a s).2.1 = a ∧
      (Analyzer.isBuilt t a s).2.1 = a := by
  refine ⟨rfl, rfl, ?_⟩
  unfold Analyzer.isBuilt
  cases h : t.listOne a.go a.module.buildTarget none a.options.modulesVendor s with
  | mk r s₁ =>
    cases r with
    | error e => rfl
    | ok pkg => rfl

end FossaGolang
